import Mathlib

/-!
Verification development for the DSC Keybus Reader IP sketch
(examples/esp32/KeybusReaderIP/KeybusReaderIP.ino).

The sketch repeatedly runs `loop()`: it polls the bus decoder, reports
`keybusChanged` transitions on the serial console, and — while a TCP client is
connected — greets a new client once, filters telnet negotiation bytes out of
the inbound stream, forwards the surviving bytes to the decoder's `write`
interface, and renders decoded panel/module events (with an overflow notice
when `bufferOverflow` is set) onto the client socket.

The decoder (`dscKeybusInterface`) is an external collaborator: its observable
interface per `dsc.loop()` call is captured by an oracle record `PollEffect`
(return value, flag updates, module-data availability).  All of the sketch's
own control flow is embedded as executable Lean functions below.
-/

namespace KeybusReaderIP

/-- The space character, `Char.ofNat 32`. -/
def spaceChar : Char := Char.ofNat 32

/-- Decimal digit character: `decDigit d` is the ASCII character for digit
`d` (meaningful for `d < 10`), as produced by the Arduino `Print` digit
loop. -/
def decDigit (d : Nat) : Char := Char.ofNat (48 + d)

/-- Most-significant-digit-first decimal digit extraction, as in Arduino
`Print::printNumber`: repeatedly take `n % 10` and divide by 10.  The first
argument is fuel; `n` itself is always enough fuel since `n / 10 < n`. -/
def natCharsAux : Nat → Nat → List Char → List Char
  | 0, _, acc => acc
  | fuel + 1, n, acc =>
    if n = 0 then acc
    else natCharsAux fuel (n / 10) (decDigit (n % 10) :: acc)

/-- Decimal rendering of a natural number (Arduino `Print::printNumber`). -/
def natToDec (n : Nat) : String :=
  if n = 0 then "0" else String.mk (natCharsAux n n [])

/-- Two-decimal fixed-point rendering of `ms / 1000` seconds, as produced by
Arduino `Print::print(float, 2)`: the value is rounded half-up at the second
decimal (adding 0.005 before truncating), then the integer part, a dot, and
two fractional digits are printed.  `cs` is the rounded value in
centiseconds. -/
def printTwoDec (ms : Nat) : String :=
  let cs := (ms + 5) / 10
  natToDec (cs / 100) ++ "." ++
    String.mk [decDigit (cs % 100 / 10), decDigit (cs % 100 % 10)]

/-- `printTimestamp()` from the sketch: left-pads with spaces according to the
magnitude of `timeStamp = millis() / 1000.0` (the comparisons
`timeStamp < 10`, `< 100`, `< 1000`, `< 10000` are expressed exactly on the
millisecond count), prints the value with two decimals, then a colon. -/
def printTimestamp (ms : Nat) : String :=
  (if ms < 10000 then "    "            -- timeStamp < 10
   else if ms < 100000 then "   "       -- timeStamp < 100
   else if ms < 1000000 then "  "       -- timeStamp < 1000
   else if ms < 10000000 then " "       -- timeStamp < 10000
   else "")
  ++ printTwoDec ms ++ ":"

/-- One message written to the client socket.  The sketch writes each logical
message as a sequence of `print` calls; `renderMsg` below gives the exact
byte string of each message. -/
inductive ClientMsg where
  | greeting
  | overflow
  | panelLine (ts bin cmd msg : String)
  | moduleLine (ts bin msg : String)
deriving DecidableEq

/-- The exact text the sketch writes to the client for each message. -/
def renderMsg : ClientMsg → String
  | .greeting => "Connected to DSC Keybus Reader\r\n"
  | .overflow => "Keybus buffer overflow"
  | .panelLine ts bin cmd msg => ts ++ " " ++ bin ++ " [" ++ cmd ++ "] " ++ msg ++ "\r\n"
  | .moduleLine ts bin msg => ts ++ " " ++ bin ++ " " ++ msg ++ "\r\n"

/-- One message written to the serial console. -/
inductive SerialMsg where
  | keybusConnectedNote
  | keybusDisconnectedNote
  | clientConnectedNote
  | clientDisconnectedNote
deriving DecidableEq

def isGreetingMsg : ClientMsg → Bool
  | .greeting => true
  | _ => false

def isOverflowMsg : ClientMsg → Bool
  | .overflow => true
  | _ => false

def isModuleLineMsg : ClientMsg → Bool
  | .moduleLine _ _ _ => true
  | _ => false

def isBusNote : SerialMsg → Bool
  | .keybusConnectedNote => true
  | .keybusDisconnectedNote => true
  | _ => false

def isKeybusConnectedNote : SerialMsg → Bool
  | .keybusConnectedNote => true
  | _ => false

/-- The decoder flags the sketch reads and clears (`dsc.keybusChanged`,
`dsc.keybusConnected`, `dsc.bufferOverflow`). -/
structure DscState where
  keybusChanged : Bool
  keybusConnected : Bool
  bufferOverflow : Bool
deriving DecidableEq

/-- Sketch state across loop iterations: decoder flags plus the static
`newClient` flag. -/
structure LoopState where
  dsc : DscState
  newClient : Bool
deriving DecidableEq

/-- Oracle describing one `dsc.loop()` call of the external decoder: its
return value, whether it set the edge-triggered `keybusChanged` /
`bufferOverflow` flags during the call, the `keybusConnected` level after the
call, and whether `dsc.handleModule()` reports module data this iteration. -/
structure PollEffect where
  ret : Bool
  setChanged : Bool
  connected : Bool
  setOverflow : Bool
  hasModule : Bool
deriving DecidableEq

/-- Effect of one `dsc.loop()` call on the flags the sketch observes: the
edge-triggered flags are only ever set by the decoder (the sketch clears
them), `keybusConnected` is a level. -/
def pollEffect (d : DscState) (p : PollEffect) : DscState :=
  { keybusChanged := d.keybusChanged || p.setChanged
    keybusConnected := p.connected
    bufferOverflow := d.bufferOverflow || p.setOverflow }

/-- Oracle inputs for one iteration of the inner (client-connected) loop
body: the decoder poll and the strings the decoder would print for the
panel/module event of this iteration. -/
structure InnerInput where
  poll : PollEffect
  millis : Nat
  panelBinary : String
  panelCommand : String
  panelMessage : String
  moduleBinary : String
  moduleMessage : String
deriving DecidableEq

/-- Oracle inputs for one iteration of the outer `loop()`: the top-of-loop
decoder poll, whether `ipServer.available()` yields a client, and — if so —
one `InnerInput` per iteration of the `while (ipClient.connected())` loop
(the session stays connected for exactly that many iterations). -/
structure OuterInput where
  poll : PollEffect
  clientAvailable : Bool
  innerInputs : List InnerInput
deriving DecidableEq

/-- Result of running a step (or a run of steps): final state, remaining
inbound client bytes, messages written to the client, bytes forwarded to
`dsc.write`, serial-console messages, and the number of `dsc.loop()`
calls made. -/
structure StepResult where
  state : LoopState
  bytes : List Nat
  clientOut : List ClientMsg
  keysOut : List Nat
  serialOut : List SerialMsg
  polls : Nat
deriving DecidableEq

/-- One step of inbound-byte handling (sketch lines 136-143): if a byte is
available, peek it; on the IAC marker 0xFF read (and discard) 3 bytes,
otherwise read the single byte and forward it to `dsc.write`.  Returns the
remaining bytes and the forwarded bytes.  When fewer than 3 bytes follow an
IAC, the extra `read()` calls return -1 and consume nothing. -/
def telnetStep : List Nat → List Nat × List Nat
  | [] => ([], [])
  | b :: rest =>
    if b = 0xFF then
      match rest with
      | _ :: _ :: rest2 => (rest2, [])
      | _ => ([], [])
    else (rest, [b])

/-- The whole-stream effect of the telnet filter: the list of bytes forwarded
to `dsc.write` when the inbound stream is processed to exhaustion. -/
def telnetFilter : List Nat → List Nat
  | [] => []
  | b :: rest =>
    if b = 0xFF then
      match rest with
      | _ :: _ :: rest2 => telnetFilter rest2
      | _ => []
    else b :: telnetFilter rest

/-- The `dsc.keybusChanged` check at the top of `loop()` (sketch lines
116-120): if the flag is set it is cleared first, then one
connected/disconnected note is printed according to `keybusConnected`. -/
def keybusChangedCheck (d : DscState) : List SerialMsg × DscState :=
  if d.keybusChanged then
    let d1 := { d with keybusChanged := false }
    ((if d1.keybusConnected then [SerialMsg.keybusConnectedNote]
      else [SerialMsg.keybusDisconnectedNote]), d1)
  else ([], d)

/-- `printModule()` from the sketch: timestamp, space, module binary, space,
module message, `\r\n`. -/
def printModule (ms : Nat) (bin msg : String) : ClientMsg :=
  ClientMsg.moduleLine (printTimestamp ms) bin msg

/-- One iteration of the `while (ipClient.connected())` body (sketch lines
134-172): greet a new client once, handle one unit of inbound bytes through
the telnet filter, poll the decoder, and on `dsc.loop()` returning true print
the overflow notice (clearing the flag), the panel line (if the bus is
connected) and the module line (if module data is available); otherwise print
the module line only when the bus is connected and module data is
available. -/
def sessionStep (s : LoopState) (bytes : List Nat) (i : InnerInput) : StepResult :=
  let clientGreet := if s.newClient then [ClientMsg.greeting] else []
  let serialGreet := if s.newClient then [SerialMsg.clientConnectedNote] else []
  -- newClient is cleared when the greeting is sent; it was already false otherwise
  let newClient1 := false
  let bytes1 := (telnetStep bytes).1
  let keys := (telnetStep bytes).2
  let d1 := pollEffect s.dsc i.poll
  if i.poll.ret then
    let ovfOut := if d1.bufferOverflow then [ClientMsg.overflow] else []
    let d2 := if d1.bufferOverflow then { d1 with bufferOverflow := false } else d1
    let panelOut :=
      if d2.keybusConnected then
        [ClientMsg.panelLine (printTimestamp i.millis) i.panelBinary
          i.panelCommand i.panelMessage]
      else []
    let moduleOut :=
      if i.poll.hasModule then
        [printModule i.millis i.moduleBinary i.moduleMessage]
      else []
    { state := { dsc := d2, newClient := newClient1 }
      bytes := bytes1
      clientOut := clientGreet ++ ovfOut ++ panelOut ++ moduleOut
      keysOut := keys
      serialOut := serialGreet
      polls := 1 }
  else
    let moduleOut :=
      if d1.keybusConnected && i.poll.hasModule then
        [printModule i.millis i.moduleBinary i.moduleMessage]
      else []
    { state := { dsc := d1, newClient := newClient1 }
      bytes := bytes1
      clientOut := clientGreet ++ moduleOut
      keysOut := keys
      serialOut := serialGreet
      polls := 1 }

/-- A run of the inner loop: one `sessionStep` per `InnerInput`, threading
state and the inbound byte buffer, concatenating outputs in order. -/
def runSession (s : LoopState) (bytes : List Nat) : List InnerInput → StepResult
  | [] => { state := s, bytes := bytes, clientOut := [], keysOut := [],
            serialOut := [], polls := 0 }
  | i :: rest =>
    let r := sessionStep s bytes i
    let r2 := runSession r.state r.bytes rest
    { state := r2.state
      bytes := r2.bytes
      clientOut := r.clientOut ++ r2.clientOut
      keysOut := r.keysOut ++ r2.keysOut
      serialOut := r.serialOut ++ r2.serialOut
      polls := r.polls + r2.polls }

/-- One iteration of the outer `loop()` (sketch lines 111-180): poll the
decoder, run the `keybusChanged` check, and — if `ipServer.available()`
yields a client — run the inner session loop, then stop the socket, set
`newClient` back to true and print the disconnect note. -/
def loopStep (s : LoopState) (bytes : List Nat) (inp : OuterInput) : StepResult :=
  let d1 := pollEffect s.dsc inp.poll
  let busNotes := (keybusChangedCheck d1).1
  let d2 := (keybusChangedCheck d1).2
  let s1 : LoopState := { s with dsc := d2 }
  if inp.clientAvailable then
    let r := runSession s1 bytes inp.innerInputs
    { state := { r.state with newClient := true }
      bytes := r.bytes
      clientOut := r.clientOut
      keysOut := r.keysOut
      serialOut := busNotes ++ r.serialOut ++ [SerialMsg.clientDisconnectedNote]
      polls := 1 + r.polls }
  else
    { state := s1, bytes := bytes, clientOut := [], keysOut := [],
      serialOut := busNotes, polls := 1 }

/-- A string ends in carriage-return line-feed. -/
def EndsWithCRLF (s : String) : Prop :=
  s.data.reverse.take 2 = [Char.ofNat 10, Char.ofNat 13]

instance (s : String) : Decidable (EndsWithCRLF s) :=
  inferInstanceAs (Decidable (s.data.reverse.take 2 = [Char.ofNat 10, Char.ofNat 13]))

/-- Number of leading space characters of a character list. -/
def countLeadingSpaces : List Char → Nat
  | [] => 0
  | c :: cs => if c = spaceChar then countLeadingSpaces cs + 1 else 0

/-- Number of leading spaces of a string. -/
def leadingSpaces (s : String) : Nat := countLeadingSpaces s.data

/-- A decoder poll that returns false and changes nothing. -/
def quietPoll : PollEffect :=
  { ret := false, setChanged := false, connected := false,
    setOverflow := false, hasModule := false }

/-- A decoder poll that returns true and changes nothing. -/
def busyPoll : PollEffect :=
  { ret := true, setChanged := false, connected := false,
    setOverflow := false, hasModule := false }

/-- Sample inner-loop input with a quiet poll and empty event strings. -/
def quietInput : InnerInput :=
  { poll := quietPoll, millis := 0, panelBinary := "", panelCommand := "",
    panelMessage := "", moduleBinary := "", moduleMessage := "" }

/-- Sample inner-loop input whose poll returns true. -/
def busyInput : InnerInput :=
  { poll := busyPoll, millis := 0, panelBinary := "", panelCommand := "",
    panelMessage := "", moduleBinary := "", moduleMessage := "" }

/-- Sample state: all decoder flags clear, greeting already sent. -/
def idleState : LoopState :=
  { dsc := { keybusChanged := false, keybusConnected := false,
             bufferOverflow := false }, newClient := false }

/-- Sample state: buffer overflow pending, greeting already sent. -/
def overflowState : LoopState :=
  { dsc := { keybusChanged := false, keybusConnected := false,
             bufferOverflow := true }, newClient := false }

/-- Sample state: keybus transition pending with the bus now connected. -/
def changedState : LoopState :=
  { dsc := { keybusChanged := true, keybusConnected := true,
             bufferOverflow := false }, newClient := false }

/-- Sample state: fresh, greeting not yet sent. -/
def freshState : LoopState :=
  { dsc := { keybusChanged := false, keybusConnected := false,
             bufferOverflow := false }, newClient := true }

/-- Sample outer-loop input: no pending client connection, quiet poll. -/
def noClientOuter : OuterInput :=
  { poll := quietPoll, clientAvailable := false, innerInputs := [] }

/-- A decoder poll that returns false with the bus connected. -/
def connectedPoll : PollEffect :=
  { ret := false, setChanged := false, connected := true,
    setOverflow := false, hasModule := false }

/-- Sample outer-loop input: no pending client, bus-connected quiet poll. -/
def connectedOuter : OuterInput :=
  { poll := connectedPoll, clientAvailable := false, innerInputs := [] }

/-- Sample outer-loop input: a client connects for one quiet iteration. -/
def oneStepOuter : OuterInput :=
  { poll := quietPoll, clientAvailable := true, innerInputs := [quietInput] }

/-! ## Telnet filter lemmas -/

theorem telnetFilter_iac (b1 b2 : Nat) (rest : List Nat) :
    telnetFilter (0xFF :: b1 :: b2 :: rest) = telnetFilter rest := by
  rw [telnetFilter.eq_def]
  simp

theorem telnetFilter_payload (b : Nat) (rest : List Nat) (hb : b ≠ 0xFF) :
    telnetFilter (b :: rest) = b :: telnetFilter rest := by
  rw [telnetFilter.eq_def]
  simp [hb]

theorem telnetFilter_sublist : ∀ l : List Nat, List.Sublist (telnetFilter l) l := by
  have H : ∀ n l, List.length l ≤ n → List.Sublist (telnetFilter l) l := by
    intro n
    induction n with
    | zero =>
      intro l h
      have : l = [] := List.eq_nil_of_length_eq_zero (Nat.le_zero.mp h)
      subst this
      rw [telnetFilter.eq_1]
    | succ n ih =>
      intro l h
      match l with
      | [] => rw [telnetFilter.eq_1]
      | b :: rest =>
        by_cases hb : b = 0xFF
        · subst hb
          match rest with
          | [] =>
            rw [telnetFilter.eq_def]
            simp
          | [x] =>
            rw [telnetFilter.eq_def]
            simp
          | x :: y :: rest2 =>
            rw [telnetFilter_iac]
            have hlen : List.length rest2 ≤ n := by
              simp only [List.length_cons] at h
              omega
            exact ((ih rest2 hlen).cons y).cons x |>.cons 0xFF
        · rw [telnetFilter_payload b rest hb]
          have hlen : List.length rest ≤ n := by
            simp only [List.length_cons] at h
            omega
          exact (ih rest hlen).cons₂ b
  intro l
  exact H l.length l le_rfl

theorem sessionStep_bytes (s : LoopState) (bytes : List Nat) (i : InnerInput) :
    (sessionStep s bytes i).bytes = (telnetStep bytes).1 := by
  cases hr : i.poll.ret <;> simp [sessionStep, hr]

theorem sessionStep_keysOut (s : LoopState) (bytes : List Nat) (i : InnerInput) :
    (sessionStep s bytes i).keysOut = (telnetStep bytes).2 := by
  cases hr : i.poll.ret <;> simp [sessionStep, hr]

/-- C1: whenever the next inbound byte is the IAC marker 0xFF, exactly three
bytes (the IAC and the two following bytes) are consumed and none of them is
forwarded to the decoder's `write` interface; a non-IAC byte is consumed
alone and forwarded unchanged; and the forwarded stream is a sublist of the
inbound stream, so forwarded bytes reach the decoder in arrival order. -/
theorem telnet_filter_contract (b b1 b2 : Nat) (rest : List Nat) (s : LoopState)
    (i : InnerInput) (hb : b ≠ 0xFF) :
    telnetFilter (0xFF :: b1 :: b2 :: rest) = telnetFilter rest ∧
    telnetFilter (b :: rest) = b :: telnetFilter rest ∧
    (∀ l : List Nat, List.Sublist (telnetFilter l) l) ∧
    (sessionStep s (0xFF :: b1 :: b2 :: rest) i).bytes = rest ∧
    (sessionStep s (0xFF :: b1 :: b2 :: rest) i).keysOut = [] ∧
    (sessionStep s (b :: rest) i).bytes = rest ∧
    (sessionStep s (b :: rest) i).keysOut = [b] := by
  refine ⟨telnetFilter_iac b1 b2 rest, telnetFilter_payload b rest hb,
    telnetFilter_sublist, ?_, ?_, ?_, ?_⟩
  · rw [sessionStep_bytes]; simp [telnetStep]
  · rw [sessionStep_keysOut]; simp [telnetStep]
  · rw [sessionStep_bytes]; simp [telnetStep, hb]
  · rw [sessionStep_keysOut]; simp [telnetStep, hb]

/-- Witness for C1 at `b = 0x31`, `b1 = 0xFB`, `b2 = 0x31`, `rest = [0x32]`. -/
theorem telnet_filter_contract_witness :
    telnetFilter [0xFF, 0xFB, 0x31, 0x32] = telnetFilter [0x32] ∧
    telnetFilter [0x31, 0x32] = 0x31 :: telnetFilter [0x32] ∧
    (∀ l : List Nat, List.Sublist (telnetFilter l) l) ∧
    (sessionStep idleState [0xFF, 0xFB, 0x31, 0x32] quietInput).bytes = [0x32] ∧
    (sessionStep idleState [0xFF, 0xFB, 0x31, 0x32] quietInput).keysOut = [] ∧
    (sessionStep idleState [0x31, 0x32] quietInput).bytes = [0x32] ∧
    (sessionStep idleState [0x31, 0x32] quietInput).keysOut = [0x31] :=
  telnet_filter_contract 0x31 0xFB 0x31 [0x32] idleState quietInput (by decide)

/-- C2 counterexample: after the client sends `[0xFF, 0xFB, 0x31, 0x32]`, the
decoder's write interface does NOT receive `['1', '2']` (`[0x31, 0x32]`): the
three-byte telnet triplet `0xFF 0xFB 0x31` swallows the `'1'`. -/
theorem telnet_scenario_cex :
    (runSession idleState [0xFF, 0xFB, 0x31, 0x32]
        [quietInput, quietInput, quietInput, quietInput]).keysOut
      ≠ [0x31, 0x32] := by decide

/-- C2 amended: after the client sends `[0xFF, 0xFB, 0x31, 0x32]`, the
decoder's write interface receives exactly the keystroke `'2'` (`0x32`) and
nothing else; the triplet `0xFF 0xFB 0x31` is discarded as negotiation. -/
theorem telnet_scenario_amended :
    telnetFilter [0xFF, 0xFB, 0x31, 0x32] = [0x32] ∧
    (runSession idleState [0xFF, 0xFB, 0x31, 0x32]
        [quietInput, quietInput, quietInput, quietInput]).keysOut = [0x32] ∧
    (runSession idleState [0xFF, 0xFB, 0x31, 0x32]
        [quietInput, quietInput, quietInput, quietInput]).bytes = [] := by
  decide

/-! ## Timestamp rendering lemmas -/

theorem natCharsAux_mem (fuel : Nat) : ∀ (n : Nat) (acc : List Char) (c : Char),
    c ∈ natCharsAux fuel n acc → c ∈ acc ∨ ∃ d, d < 10 ∧ c = decDigit d := by
  induction fuel with
  | zero =>
    intro n acc c hc
    exact Or.inl hc
  | succ fuel ih =>
    intro n acc c hc
    simp only [natCharsAux] at hc
    by_cases hn : n = 0
    · rw [if_pos hn] at hc
      exact Or.inl hc
    · rw [if_neg hn] at hc
      rcases ih _ _ _ hc with h | h
      · rcases List.mem_cons.mp h with h | h
        · exact Or.inr ⟨n % 10, Nat.mod_lt _ (by decide), h⟩
        · exact Or.inl h
      · exact Or.inr h

theorem natCharsAux_length (fuel : Nat) : ∀ (n : Nat) (acc : List Char),
    acc.length ≤ (natCharsAux fuel n acc).length := by
  induction fuel with
  | zero =>
    intro n acc
    simp [natCharsAux]
  | succ fuel ih =>
    intro n acc
    simp only [natCharsAux]
    by_cases hn : n = 0
    · simp [hn]
    · rw [if_neg hn]
      calc acc.length ≤ (decDigit (n % 10) :: acc).length := by simp
        _ ≤ _ := ih _ _

theorem natToDec_head (n : Nat) :
    ∃ c t, (natToDec n).data = c :: t ∧ c ≠ spaceChar := by
  have hdig : ∀ d, d < 10 → decDigit d ≠ spaceChar := by decide
  unfold natToDec
  by_cases hn : n = 0
  · rw [if_pos hn]
    exact ⟨Char.ofNat 48, [], by decide, by decide⟩
  · rw [if_neg hn]
    obtain ⟨m, rfl⟩ := Nat.exists_eq_succ_of_ne_zero hn
    have hlen : 1 ≤ (natCharsAux (m + 1) (m + 1) []).length := by
      simp only [natCharsAux, if_neg hn]
      calc 1 = (List.length [decDigit ((m + 1) % 10)]) := by simp
        _ ≤ _ := natCharsAux_length m ((m + 1) / 10) _
    match hres : natCharsAux (m + 1) (m + 1) [] with
    | [] => rw [hres] at hlen; simp at hlen
    | c :: t =>
      refine ⟨c, t, rfl, ?_⟩
      have hc : c ∈ natCharsAux (m + 1) (m + 1) [] := by
        rw [hres]; exact List.mem_cons_self c t
      rcases natCharsAux_mem _ _ _ _ hc with h | ⟨d, hd, rfl⟩
      · simp at h
      · exact hdig d hd

theorem printTwoDec_head (ms : Nat) :
    ∃ c t, (printTwoDec ms).data = c :: t ∧ c ≠ spaceChar := by
  obtain ⟨c, t, h, hc⟩ := natToDec_head ((ms + 5) / 10 / 100)
  refine ⟨c, t ++ ("." ++ String.mk [decDigit ((ms + 5) / 10 % 100 / 10),
    decDigit ((ms + 5) / 10 % 100 % 10)]).data, ?_, hc⟩
  simp [printTwoDec, h]

theorem countLeadingSpaces_cons_space (c : Char) (cs : List Char) (h : c = spaceChar) :
    countLeadingSpaces (c :: cs) = countLeadingSpaces cs + 1 := by
  simp [countLeadingSpaces, h]

theorem countLeadingSpaces_cons_other (c : Char) (cs : List Char) (h : c ≠ spaceChar) :
    countLeadingSpaces (c :: cs) = 0 := by
  simp [countLeadingSpaces, h]

/-- C4: the timestamp field is left-padded with exactly 4 spaces when the
elapsed value `t = ms / 1000` satisfies `t < 10` (that is, `ms < 10000`),
3 spaces when `10 ≤ t < 100`, 2 when `100 ≤ t < 1000`, 1 when
`1000 ≤ t < 10000`, 0 when `t ≥ 10000`; the field ends with a colon; and the
five sample values render exactly as the spec lists them. -/
theorem timestamp_padding (ms : Nat) :
    leadingSpaces (printTimestamp ms) =
      (if ms < 10000 then 4 else if ms < 100000 then 3 else if ms < 1000000 then 2
       else if ms < 10000000 then 1 else 0) ∧
    (printTimestamp ms).data.getLast? = some (Char.ofNat 58) ∧
    printTimestamp 7000 = "    7.00:" ∧
    printTimestamp 42500 = "   42.50:" ∧
    printTimestamp 234100 = "  234.10:" ∧
    printTimestamp 5234990 = " 5234.99:" ∧
    printTimestamp 12345000 = "12345.00:" := by
  obtain ⟨c, t, h, hc⟩ := printTwoDec_head ms
  have hcolon : (":" : String).data = [Char.ofNat 58] := by decide
  refine ⟨?_, ?_, by decide, by decide, by decide, by decide, by decide⟩
  · have h4 : ("    " : String).data = List.replicate 4 spaceChar := by decide
    have h3 : ("   " : String).data = List.replicate 3 spaceChar := by decide
    have h2 : ("  " : String).data = List.replicate 2 spaceChar := by decide
    have h1 : (" " : String).data = List.replicate 1 spaceChar := by decide
    have h0 : ("" : String).data = List.replicate 0 spaceChar := by decide
    unfold printTimestamp leadingSpaces
    split_ifs
    all_goals
      simp only [String.data_append, h4, h3, h2, h1, h0, h, hcolon,
        List.cons_append, List.append_assoc, List.nil_append]
      repeat rw [countLeadingSpaces_cons_space _ _ (by decide)]
      rw [countLeadingSpaces_cons_other _ _ hc]
  · unfold printTimestamp
    simp only [String.data_append, hcolon]
    exact List.getLast?_concat _

/-! ## Session-step bookkeeping lemmas -/

theorem sessionStep_overflow_count (s : LoopState) (bytes : List Nat) (i : InnerInput) :
    List.countP isOverflowMsg (sessionStep s bytes i).clientOut =
      (if (s.dsc.bufferOverflow || i.poll.setOverflow) && i.poll.ret then 1 else 0) ∧
    (sessionStep s bytes i).state.dsc.bufferOverflow =
      ((s.dsc.bufferOverflow || i.poll.setOverflow) && !i.poll.ret) := by
  rcases s with ⟨⟨kc, kco, bo⟩, nc⟩
  rcases i with ⟨⟨ret, sc, conn, so, hm⟩, ms, pb, pc, pm, mb, mm⟩
  cases ret <;> cases bo <;> cases so <;> cases nc <;> cases conn <;> cases hm <;>
    simp [sessionStep, pollEffect, isOverflowMsg, printModule]

theorem sessionStep_module_count (s : LoopState) (bytes : List Nat) (i : InnerInput) :
    List.countP isModuleLineMsg (sessionStep s bytes i).clientOut =
      (if i.poll.hasModule && (i.poll.ret || i.poll.connected) then 1 else 0) := by
  rcases s with ⟨⟨kc, kco, bo⟩, nc⟩
  rcases i with ⟨⟨ret, sc, conn, so, hm⟩, ms, pb, pc, pm, mb, mm⟩
  cases ret <;> cases bo <;> cases so <;> cases nc <;> cases conn <;> cases hm <;>
    simp [sessionStep, pollEffect, isModuleLineMsg, printModule]

theorem sessionStep_greeting_count (s : LoopState) (bytes : List Nat) (i : InnerInput) :
    List.countP isGreetingMsg (sessionStep s bytes i).clientOut =
      (if s.newClient then 1 else 0) := by
  rcases s with ⟨⟨kc, kco, bo⟩, nc⟩
  rcases i with ⟨⟨ret, sc, conn, so, hm⟩, ms, pb, pc, pm, mb, mm⟩
  cases ret <;> cases bo <;> cases so <;> cases nc <;> cases conn <;> cases hm <;>
    simp [sessionStep, pollEffect, isGreetingMsg, printModule]

theorem sessionStep_newClient (s : LoopState) (bytes : List Nat) (i : InnerInput) :
    (sessionStep s bytes i).state.newClient = false := by
  cases hr : i.poll.ret <;> simp [sessionStep, hr]

theorem sessionStep_keybusChanged (s : LoopState) (bytes : List Nat) (i : InnerInput) :
    (sessionStep s bytes i).state.dsc.keybusChanged =
      (s.dsc.keybusChanged || i.poll.setChanged) := by
  rcases s with ⟨⟨kc, kco, bo⟩, nc⟩
  rcases i with ⟨⟨ret, sc, conn, so, hm⟩, ms, pb, pc, pm, mb, mm⟩
  cases ret <;> cases bo <;> cases so <;> cases nc <;> cases conn <;> cases hm <;>
    simp [sessionStep, pollEffect]

theorem sessionStep_serialOut (s : LoopState) (bytes : List Nat) (i : InnerInput) :
    (sessionStep s bytes i).serialOut =
      (if s.newClient then [SerialMsg.clientConnectedNote] else []) := by
  cases hr : i.poll.ret <;> simp [sessionStep, hr]

theorem sessionStep_polls (s : LoopState) (bytes : List Nat) (i : InnerInput) :
    (sessionStep s bytes i).polls = 1 := by
  cases hr : i.poll.ret <;> simp [sessionStep, hr]

theorem sessionStep_clientOut_head (s : LoopState) (bytes : List Nat) (i : InnerInput)
    (h : s.newClient = true) :
    (sessionStep s bytes i).clientOut.head? = some ClientMsg.greeting := by
  cases hr : i.poll.ret <;> simp [sessionStep, hr, h]

/-! ## Session-run lemmas -/

theorem runSession_polls (inps : List InnerInput) : ∀ (s : LoopState) (bytes : List Nat),
    (runSession s bytes inps).polls = inps.length := by
  induction inps with
  | nil => intro s bytes; simp [runSession]
  | cons i rest ih =>
    intro s bytes
    simp [runSession, sessionStep_polls, ih]
    omega

theorem runSession_overflow_free (inps : List InnerInput) :
    ∀ (s : LoopState) (bytes : List Nat),
    (∀ j ∈ inps, j.poll.setOverflow = false) → s.dsc.bufferOverflow = false →
    List.countP isOverflowMsg (runSession s bytes inps).clientOut = 0 ∧
    (runSession s bytes inps).state.dsc.bufferOverflow = false := by
  induction inps with
  | nil =>
    intro s bytes _ hf
    simp [runSession, hf]
  | cons i rest ih =>
    intro s bytes hset hf
    have hi : i.poll.setOverflow = false := hset i (List.mem_cons_self i rest)
    have hrest : ∀ j ∈ rest, j.poll.setOverflow = false :=
      fun j hj => hset j (List.mem_cons_of_mem i hj)
    obtain ⟨hcnt, hflag⟩ := sessionStep_overflow_count s bytes i
    rw [hf, hi] at hcnt hflag
    simp only [Bool.or_false, Bool.false_and, if_false] at hcnt hflag
    obtain ⟨ih1, ih2⟩ := ih (sessionStep s bytes i).state (sessionStep s bytes i).bytes
      hrest hflag
    constructor
    · simp [runSession, List.countP_append, hcnt, ih1]
    · simp [runSession, ih2]

theorem runSession_overflow_le_one (inps : List InnerInput) :
    ∀ (s : LoopState) (bytes : List Nat),
    (∀ j ∈ inps, j.poll.setOverflow = false) →
    List.countP isOverflowMsg (runSession s bytes inps).clientOut ≤ 1 := by
  induction inps with
  | nil =>
    intro s bytes _
    simp [runSession]
  | cons i rest ih =>
    intro s bytes hset
    have hi : i.poll.setOverflow = false := hset i (List.mem_cons_self i rest)
    have hrest : ∀ j ∈ rest, j.poll.setOverflow = false :=
      fun j hj => hset j (List.mem_cons_of_mem i hj)
    obtain ⟨hcnt, hflag⟩ := sessionStep_overflow_count s bytes i
    simp only [runSession, List.countP_append]
    by_cases hb : ((s.dsc.bufferOverflow || i.poll.setOverflow) && i.poll.ret) = true
    · have hret : i.poll.ret = true := by
        rcases Bool.and_eq_true_iff.mp hb with ⟨_, h⟩
        exact h
      rw [hret] at hflag
      simp only [Bool.not_true, Bool.and_false] at hflag
      have hz := (runSession_overflow_free rest (sessionStep s bytes i).state
        (sessionStep s bytes i).bytes hrest hflag).1
      rw [hcnt, if_pos hb, hz]
    · rw [hcnt, if_neg hb]
      have := ih (sessionStep s bytes i).state (sessionStep s bytes i).bytes hrest
      omega

theorem runSession_greeting_zero (inps : List InnerInput) :
    ∀ (s : LoopState) (bytes : List Nat), s.newClient = false →
    List.countP isGreetingMsg (runSession s bytes inps).clientOut = 0 := by
  induction inps with
  | nil =>
    intro s bytes _
    simp [runSession]
  | cons i rest ih =>
    intro s bytes hn
    have h1 := sessionStep_greeting_count s bytes i
    rw [hn] at h1
    simp only [Bool.false_eq_true, if_false] at h1
    have h2 := ih (sessionStep s bytes i).state (sessionStep s bytes i).bytes
      (sessionStep_newClient s bytes i)
    simp [runSession, List.countP_append, h1, h2]

theorem runSession_busNote_zero (inps : List InnerInput) :
    ∀ (s : LoopState) (bytes : List Nat),
    List.countP isBusNote (runSession s bytes inps).serialOut = 0 := by
  induction inps with
  | nil =>
    intro s bytes
    simp [runSession]
  | cons i rest ih =>
    intro s bytes
    have h1 : List.countP isBusNote (sessionStep s bytes i).serialOut = 0 := by
      rw [sessionStep_serialOut]
      cases hn : s.newClient <;> simp [isBusNote]
    simp [runSession, List.countP_append, h1, ih]

theorem runSession_keybusChanged (inps : List InnerInput) :
    ∀ (s : LoopState) (bytes : List Nat), s.dsc.keybusChanged = true →
    (runSession s bytes inps).state.dsc.keybusChanged = true := by
  induction inps with
  | nil =>
    intro s bytes h
    simpa [runSession] using h
  | cons i rest ih =>
    intro s bytes h
    have h1 := sessionStep_keybusChanged s bytes i
    rw [h] at h1
    simp only [Bool.true_or] at h1
    simpa [runSession] using
      ih (sessionStep s bytes i).state (sessionStep s bytes i).bytes h1

/-! ## Claims C3, C7, C8 -/

/-- C3: with no new overflow occurrence during the run, the overflow notice
is emitted to the client at most once; and whenever a loop iteration emits
the notice, it emits it exactly once and the `bufferOverflow` flag is false
immediately afterwards, so the same underlying overflow is never reported
twice. -/
theorem overflow_reported_once (s : LoopState) (bytes : List Nat)
    (inps : List InnerInput) (i : InnerInput)
    (h : ∀ j ∈ inps, j.poll.setOverflow = false)
    (hi : 1 ≤ List.countP isOverflowMsg (sessionStep s bytes i).clientOut) :
    List.countP isOverflowMsg (runSession s bytes inps).clientOut ≤ 1 ∧
    List.countP isOverflowMsg (sessionStep s bytes i).clientOut = 1 ∧
    (sessionStep s bytes i).state.dsc.bufferOverflow = false := by
  obtain ⟨hcnt, hflag⟩ := sessionStep_overflow_count s bytes i
  by_cases hb : ((s.dsc.bufferOverflow || i.poll.setOverflow) && i.poll.ret) = true
  · have hret : i.poll.ret = true := (Bool.and_eq_true_iff.mp hb).2
    rw [hret] at hflag
    simp only [Bool.not_true, Bool.and_false] at hflag
    exact ⟨runSession_overflow_le_one inps s bytes h, by rw [hcnt, if_pos hb], hflag⟩
  · rw [hcnt, if_neg hb] at hi
    omega

/-- Witness for C3: overflow pending, one poll that returns true and sets no
new overflow. -/
theorem overflow_reported_once_witness :
    List.countP isOverflowMsg (runSession overflowState [] [busyInput]).clientOut ≤ 1 ∧
    List.countP isOverflowMsg (sessionStep overflowState [] busyInput).clientOut = 1 ∧
    (sessionStep overflowState [] busyInput).state.dsc.bufferOverflow = false :=
  overflow_reported_once overflowState [] [busyInput] busyInput (by decide) (by decide)

/-- C7: the decoder's `dsc.loop()` is invoked exactly once per inner
iteration while a client is connected, `n` times by a session of `n` inner
iterations, and `1 + n` times by an outer iteration (once unconditionally at
the top, plus the inner calls); in particular every outer iteration polls at
least once even with no client. -/
theorem poll_every_iteration (s : LoopState) (bytes : List Nat) (inp : OuterInput)
    (i : InnerInput) :
    (sessionStep s bytes i).polls = 1 ∧
    (runSession s bytes inp.innerInputs).polls = inp.innerInputs.length ∧
    (loopStep s bytes inp).polls =
      1 + (if inp.clientAvailable then inp.innerInputs.length else 0) ∧
    1 ≤ (loopStep s bytes inp).polls := by
  refine ⟨sessionStep_polls s bytes i, runSession_polls inp.innerInputs s bytes, ?_, ?_⟩
  · cases hc : inp.clientAvailable <;>
      simp [loopStep, hc, runSession_polls]
  · cases hc : inp.clientAvailable <;>
      simp [loopStep, hc, runSession_polls]

/-- C8: on an inner iteration a module line is emitted exactly when module
data is available and either the poll reported work done (irrespective of
the bus-connected level) or the poll reported no work but the bus is
connected. -/
theorem module_line_condition (s : LoopState) (bytes : List Nat) (i : InnerInput) :
    List.countP isModuleLineMsg (sessionStep s bytes i).clientOut =
      (if i.poll.hasModule && (i.poll.ret || i.poll.connected) then 1 else 0) :=
  sessionStep_module_count s bytes i

/-! ## Claims C5, C6, C9, C10 -/

/-- C5: when the decoder reports `keybusChanged` with `keybusConnected` now
true, the check clears the flag first (the clear precedes the print in
`keybusChangedCheck` as in the sketch) and emits exactly the one
"Keybus connected" note; re-running the check on the resulting state emits
nothing, so the same transition never produces a second notification.  The
same holds for a whole outer iteration when no client is pending. -/
theorem keybus_connected_notice (d : DscState) (s2 : LoopState) (b2 : List Nat)
    (inp2 : OuterInput) (h1 : d.keybusChanged = true) (h2 : d.keybusConnected = true)
    (h3 : s2.dsc.keybusChanged = true) (h4 : inp2.poll.connected = true)
    (h5 : inp2.clientAvailable = false) :
    (keybusChangedCheck d).1 = [SerialMsg.keybusConnectedNote] ∧
    (keybusChangedCheck d).2.keybusChanged = false ∧
    (keybusChangedCheck (keybusChangedCheck d).2).1 = [] ∧
    (loopStep s2 b2 inp2).serialOut = [SerialMsg.keybusConnectedNote] ∧
    (loopStep s2 b2 inp2).state.dsc.keybusChanged = false := by
  refine ⟨?_, ?_, ?_, ?_, ?_⟩
  · simp [keybusChangedCheck, h1, h2]
  · simp [keybusChangedCheck, h1]
  · simp [keybusChangedCheck, h1]
  · simp [loopStep, keybusChangedCheck, pollEffect, h3, h4, h5]
  · simp [loopStep, keybusChangedCheck, pollEffect, h3, h4, h5]

/-- Witness for C5 at a pending connected-transition state. -/
theorem keybus_connected_notice_witness :
    (keybusChangedCheck changedState.dsc).1 = [SerialMsg.keybusConnectedNote] ∧
    (keybusChangedCheck changedState.dsc).2.keybusChanged = false ∧
    (keybusChangedCheck (keybusChangedCheck changedState.dsc).2).1 = [] ∧
    (loopStep changedState [] connectedOuter).serialOut =
      [SerialMsg.keybusConnectedNote] ∧
    (loopStep changedState [] connectedOuter).state.dsc.keybusChanged = false :=
  keybus_connected_notice changedState.dsc changedState [] connectedOuter
    (by decide) (by decide) (by decide) (by decide) (by decide)

/-- C6 counterexample: the buffer-overflow notice is written to the client
(here by an iteration with a pending overflow and a successful poll) but its
text "Keybus buffer overflow" is NOT terminated by CR LF, refuting the claim
that every message written to the client socket ends in the two characters
CR LF. -/
theorem crlf_termination_cex :
    ClientMsg.overflow ∈ (sessionStep overflowState [] busyInput).clientOut ∧
    ¬ EndsWithCRLF (renderMsg ClientMsg.overflow) := by decide

/-- C6 amended: every message written to the client socket except the
buffer-overflow notice — the one-time greeting, each panel event line and
each module event line — is terminated with CR LF; the overflow notice is
the single exception. -/
theorem crlf_termination_amended (m : ClientMsg) (h : isOverflowMsg m = false) :
    EndsWithCRLF (renderMsg m) := by
  have hdata : ("\r\n" : String).data = [Char.ofNat 13, Char.ofNat 10] := by decide
  cases m with
  | greeting => decide
  | overflow => simp [isOverflowMsg] at h
  | panelLine ts bin cmd msg =>
    simp [renderMsg, EndsWithCRLF, hdata, List.reverse_append]
  | moduleLine ts bin msg =>
    simp [renderMsg, EndsWithCRLF, hdata, List.reverse_append]

/-- Witness for C6 (amended) at the greeting message. -/
theorem crlf_termination_amended_witness :
    EndsWithCRLF (renderMsg ClientMsg.greeting) :=
  crlf_termination_amended ClientMsg.greeting (by decide)

/-- C9: a session that starts with `newClient` set and runs at least one
iteration emits the greeting as its very first client message and exactly
once in the whole session; and any outer iteration that hosted a client
session ends with `newClient` set again, so the next accepted session is
treated as new. -/
theorem session_greeting (s : LoopState) (bytes : List Nat) (inps : List InnerInput)
    (s2 : LoopState) (b2 : List Nat) (inp2 : OuterInput)
    (h1 : s.newClient = true) (h2 : inps ≠ []) (h3 : inp2.clientAvailable = true) :
    (runSession s bytes inps).clientOut.head? = some ClientMsg.greeting ∧
    List.countP isGreetingMsg (runSession s bytes inps).clientOut = 1 ∧
    (loopStep s2 b2 inp2).state.newClient = true := by
  obtain ⟨i, rest, rfl⟩ := List.exists_cons_of_ne_nil h2
  refine ⟨?_, ?_, ?_⟩
  · have hh := sessionStep_clientOut_head s bytes i h1
    cases hco : (sessionStep s bytes i).clientOut with
    | nil => rw [hco] at hh; simp at hh
    | cons a l =>
      rw [hco] at hh
      simp only [List.head?_cons, Option.some.injEq] at hh
      subst hh
      simp [runSession, hco]
  · have hcnt := sessionStep_greeting_count s bytes i
    rw [h1] at hcnt
    simp only [if_true] at hcnt
    have hz := runSession_greeting_zero rest (sessionStep s bytes i).state
      (sessionStep s bytes i).bytes (sessionStep_newClient s bytes i)
    simp [runSession, List.countP_append, hcnt, hz]
  · simp [loopStep, h3]

/-- Witness for C9: fresh greeting-pending session, one quiet iteration, and
an outer iteration that hosts a one-iteration session. -/
theorem session_greeting_witness :
    (runSession freshState [] [quietInput]).clientOut.head? =
      some ClientMsg.greeting ∧
    List.countP isGreetingMsg (runSession freshState [] [quietInput]).clientOut = 1 ∧
    (loopStep idleState [] oneStepOuter).state.newClient = true :=
  session_greeting freshState [] [quietInput] idleState [] oneStepOuter
    (by decide) (by decide) (by decide)

/-- C10: while a client session runs, no bus connection notification is
emitted (the inner loop never reaches the `keybusChanged` check) and a
pending `keybusChanged` flag stays set through the whole session; once
the session has ended, the next outer iteration reports the stale
transition exactly once. -/
theorem session_defers_bus_notice (s : LoopState) (bytes : List Nat)
    (inps : List InnerInput) (s2 : LoopState) (b2 : List Nat) (inp2 : OuterInput)
    (h1 : s.dsc.keybusChanged = true) (h2 : s2.dsc.keybusChanged = true) :
    List.countP isBusNote (runSession s bytes inps).serialOut = 0 ∧
    (runSession s bytes inps).state.dsc.keybusChanged = true ∧
    List.countP isBusNote (loopStep s2 b2 inp2).serialOut = 1 := by
  refine ⟨runSession_busNote_zero inps s bytes,
    runSession_keybusChanged inps s bytes h1, ?_⟩
  have hbus : List.countP isBusNote (keybusChangedCheck (pollEffect s2.dsc inp2.poll)).1 = 1 := by
    have hch : (pollEffect s2.dsc inp2.poll).keybusChanged = true := by
      simp [pollEffect, h2]
    cases hco : (pollEffect s2.dsc inp2.poll).keybusConnected <;>
      simp [keybusChangedCheck, hch, hco, isBusNote]
  cases hc : inp2.clientAvailable
  · simp [loopStep, hc, hbus]
  · simp [loopStep, hc, List.countP_append, hbus, runSession_busNote_zero, isBusNote]

/-- Witness for C10: transition pending, empty session, then an idle outer
iteration with the transition still pending. -/
theorem session_defers_bus_notice_witness :
    List.countP isBusNote (runSession changedState [] []).serialOut = 0 ∧
    (runSession changedState [] []).state.dsc.keybusChanged = true ∧
    List.countP isBusNote (loopStep changedState [] noClientOuter).serialOut = 1 :=
  session_defers_bus_notice changedState [] [] changedState [] noClientOuter
    (by decide) (by decide)

end KeybusReaderIP
